import Mathlib

/-!
Verification of the pydantic-ai-research repository core:
the history Windower (`filtered_message_history` of src/agent_test_fixed.py),
the execution-graph driver (`run_with_iter` of src/agent_test_iter.py) and the
filesystem protocol server (src/mcp_servers/filesystem_mcp_fixed.py, with the
FastMCP variant of `list_files` from src/mcp_servers/filesystem_mcp.py).

Python dictionaries are modelled as association lists with last-binding-wins
lookup, Python sets of indices as `Finset Nat`, the filesystem as a finite map
from component paths to nodes, and exceptions as `Except` / explicit error
branches.  All definitions are executable.
-/

namespace Windower

/-- `MessagePart`: the tagged message-part variant of pydantic_ai messages, as
used by `filtered_message_history` (SystemPromptPart, UserPromptPart, TextPart,
ToolCallPart, ToolReturnPart). -/
inductive MessagePart where
  | systemPromptPart (text : String)
  | userPromptPart (text : String)
  | textPart (content : String)
  | toolCallPart (tool_call_id : String) (tool_name : String)
      (args : List (String × String))
  | toolReturnPart (tool_call_id : String) (value : String)
deriving Repr, DecidableEq

/-- A `ModelMessage`: an ordered sequence of parts.  `filtered_message_history`
inspects only `msg.parts`, so no further structure is modelled. -/
structure Message where
  parts : List MessagePart
deriving Repr, DecidableEq

instance : Inhabited Message := ⟨⟨[]⟩⟩

/-- `any(isinstance(part, SystemPromptPart) for part in msg.parts)` -/
def hasSystemPart (m : Message) : Bool :=
  m.parts.any fun p =>
    match p with
    | .systemPromptPart _ => true
    | _ => false

/-- `any(isinstance(part, ToolCallPart) or isinstance(part, ToolReturnPart) for part in msg.parts)` -/
def hasToolPart (m : Message) : Bool :=
  m.parts.any fun p =>
    match p with
    | .toolCallPart _ _ _ => true
    | .toolReturnPart _ _ => true
    | _ => false

/-- The tool_call_ids of the `ToolCallPart`s of a message, in part order. -/
def callIds (m : Message) : List String :=
  m.parts.filterMap fun p =>
    match p with
    | .toolCallPart cid _ _ => some cid
    | _ => none

/-- The tool_call_ids of the `ToolReturnPart`s of a message, in part order. -/
def returnIds (m : Message) : List String :=
  m.parts.filterMap fun p =>
    match p with
    | .toolReturnPart cid _ => some cid
    | _ => none

/-- The `(tool_call_id, message index)` pairs recorded by the loop
`for i, msg in ...: for part in msg.parts: if isinstance(part, ToolCallPart):
tool_call_ids[part.tool_call_id] = i`, in assignment order. -/
def toolCallIdsList : Nat → List Message → List (String × Nat)
  | _, [] => []
  | i, m :: rest =>
      (callIds m).map (fun cid => (cid, i)) ++ toolCallIdsList (i + 1) rest

/-- Lookup in a Python dict built by repeated assignment: the last binding of a
key wins. -/
def dictLookup (l : List (String × Nat)) (id : String) : Option Nat :=
  (l.reverse.find? fun e => e.fst == id).map (·.snd)

/-- A Python set of indices, modelled by the list of its elements (only
membership is ever observed); `add` keeps the elements duplicate-free. -/
def setAdd (j : Nat) (s : List Nat) : List Nat :=
  if j ∈ s then s else s ++ [j]

/-- The body of the repair loop's inner `for part in msg.parts`: add
`tool_call_ids[part.tool_call_id]` when the part is a `ToolReturnPart` whose
id is in the dict. -/
def repairStep (callIdx : String → Option Nat) (s' : List Nat)
    (p : MessagePart) : List Nat :=
  match p with
  | .toolReturnPart cid _ =>
      match callIdx cid with
      | some j => setAdd j s'
      | none => s'
  | _ => s'

/-- One message step of the repair loop: if the message's index is in the
included set, add `tool_call_ids[part.tool_call_id]` for each of its
`ToolReturnPart`s whose id is in the dict. -/
def repairMsg (callIdx : String → Option Nat) (m : Message) (s : List Nat) :
    List Nat :=
  m.parts.foldl (repairStep callIdx) s

/-- The repair loop of `filtered_message_history`:
`for i, msg in enumerate(non_system_messages): if i in included_indices: ...`.
The membership test reads the set as already mutated by earlier iterations,
exactly as the Python loop does. -/
def repairLoop (callIdx : String → Option Nat) :
    Nat → List Message → List Nat → List Nat
  | _, [], s => s
  | i, m :: rest, s =>
      repairLoop callIdx (i + 1) rest (if i ∈ s then repairMsg callIdx m s else s)

/-- `[msg for i, msg in enumerate(non_system_messages) if i in included_indices]` -/
def selectFrom (s : List Nat) : Nat → List Message → List Message
  | _, [] => []
  | i, m :: rest =>
      if i ∈ s then m :: selectFrom s (i + 1) rest else selectFrom s (i + 1) rest

/-- `filtered_message_history` of src/agent_test_fixed.py, on the message list
`result.all_messages()` (the `result is None` guard returns None before this
logic and is not modelled; the caller's messages list is the input). -/
def filtered_message_history (messages : List Message) (limit : Option Int)
    (include_tool_messages : Bool) : List Message :=
  let system_message := messages.find? hasSystemPart
  let nonSystem0 := messages.filter fun m => !hasSystemPart m
  let nonSystem1 :=
    if include_tool_messages then nonSystem0
    else nonSystem0.filter fun m => !hasToolPart m
  let nonSystem2 :=
    match limit with
    | some l =>
        if l > 0 then
          let callIdx := dictLookup (toolCallIdsList 0 nonSystem1)
          if (nonSystem1.length : Int) > l then
            let included0 : List Nat :=
              List.range' (nonSystem1.length - l.toNat) l.toNat
            let included := repairLoop callIdx 0 nonSystem1 included0
            selectFrom included 0 nonSystem1
          else nonSystem1
        else nonSystem1
    | none => nonSystem1
  (match system_message with
   | some m => [m]
   | none => []) ++ nonSystem2

/-- The pairing invariant, positionally: scanning the history in order with the
set of tool_call_ids of already-seen (or same-message) `ToolCall`s, every
`ToolReturn` id must be among them. -/
def pairedFrom (avail : List String) : List Message → Bool
  | [] => true
  | m :: rest =>
      let avail' := avail ++ callIds m
      ((returnIds m).all fun id => avail'.contains id) && pairedFrom avail' rest

/-- Every `ToolReturn` of the history has a `ToolCall` with the same id at the
same or an earlier position. -/
def paired (msgs : List Message) : Bool :=
  pairedFrom [] msgs

end Windower

namespace Driver

/-- A part of a `ModelResponse` observed in a call-tools node of
`run_with_iter` (src/agent_test_iter.py): a `TextPart` or a `ToolCallPart`. -/
inductive RespPart where
  | textPart (content : String)
  | toolCallPart (tool_call_id : String) (tool_name : String)
      (args : List (String × String))
deriving Repr, DecidableEq

/-- The graph-node kinds `run_with_iter` distinguishes through
`is_model_request_node` / `is_call_tools_node` / `is_end_node`. -/
inductive GraphNode where
  | modelRequestNode
  | callToolsNode (parts : List RespPart)
  | endNode
deriving Repr, DecidableEq

/-- One observation of the `async for node in agent_run` loop: either the next
node, or an exception surfacing from the iteration (driving the `except`
branch of `run_with_iter`). -/
inductive IterEvent where
  | node (n : GraphNode)
  | raised (msg : String)
deriving Repr, DecidableEq

/-- A history entry of `run_with_iter`: the plain
`{"role": ..., "content": ...}` dictionaries it appends. -/
structure ChatMessage where
  role : String
  content : String
deriving Repr, DecidableEq

/-- Python dict assignment `d[k] = v`: replace the binding in place when the
key is present, append it otherwise. -/
def dictSet {α : Type} (l : List (String × α)) (k : String) (v : α) :
    List (String × α) :=
  if l.any (fun kv => kv.1 == k) then
    l.map fun kv => if kv.1 == k then (k, v) else kv
  else l ++ [(k, v)]

/-- `ToolStateTracker` of src/agent_test_iter.py. -/
structure ToolStateTracker where
  tool_calls : List (String × (String × List (String × String)))
  tool_results : List (String × String)
  text_output : List String
  final_output : String
deriving Repr, DecidableEq

/-- `ToolStateTracker.__init__` -/
def ToolStateTracker.init : ToolStateTracker :=
  { tool_calls := [], tool_results := [], text_output := [], final_output := "" }

/-- `ToolStateTracker.add_tool_call` -/
def ToolStateTracker.add_tool_call (t : ToolStateTracker) (tool_call_id : String)
    (tool_name : String) (args : List (String × String)) : ToolStateTracker :=
  { t with tool_calls := dictSet t.tool_calls tool_call_id (tool_name, args) }

/-- `ToolStateTracker.add_tool_result` (defined by the tracker; `run_with_iter`
never calls it). -/
def ToolStateTracker.add_tool_result (t : ToolStateTracker) (tool_call_id : String)
    (result : String) : ToolStateTracker :=
  { t with tool_results := dictSet t.tool_results tool_call_id result }

/-- `ToolStateTracker.add_text` -/
def ToolStateTracker.add_text (t : ToolStateTracker) (text : String) :
    ToolStateTracker :=
  { t with text_output := t.text_output ++ [text],
           final_output := t.final_output ++ text }

/-- `ToolStateTracker.get_complete_output` -/
def ToolStateTracker.get_complete_output (t : ToolStateTracker) : String :=
  t.final_output

/-- Rendering of `json.dumps(args, indent=2)` for the tool-call display; the
exact JSON layout is irrelevant to the driver's state. -/
def showArgs (args : List (String × String)) : String :=
  String.intercalate "\n" (args.map fun kv => kv.1 ++ ": " ++ kv.2)

/-- Python whitespace for `str.strip()`. -/
def isPySpace (c : Char) : Bool :=
  c = ' ' || c = '\t' || c = '\n' || c = '\r'

/-- `str.strip()`. -/
def pyStrip (s : String) : String :=
  String.mk (((s.toList.dropWhile isPySpace).reverse.dropWhile isPySpace).reverse)

/-- Processing of one part of a call-tools node: the updated tracker and the
strings printed for it. -/
def processPart (t : ToolStateTracker) (p : RespPart) :
    ToolStateTracker × List String :=
  match p with
  | .textPart content =>
      if pyStrip content ≠ "" then (t.add_text content, [content])
      else (t, [])
  | .toolCallPart tool_call_id tool_name args =>
      (t.add_tool_call tool_call_id tool_name args,
       ["\n[Tool Call: " ++ tool_name ++ "]\n" ++ showArgs args ++ "\n"])

/-- Processing of one graph node (model-request and end nodes mutate
nothing). -/
def processNode (t : ToolStateTracker) (n : GraphNode) :
    ToolStateTracker × List String :=
  match n with
  | .modelRequestNode => (t, [])
  | .endNode => (t, [])
  | .callToolsNode parts =>
      parts.foldl
        (fun acc p =>
          let (t', out) := processPart acc.1 p
          (t', acc.2 ++ out))
        (t, [])

/-- The `async for` loop of `run_with_iter`: consume events until the stream
ends or an exception is raised; the third component is the raised message, if
any. -/
def runEvents (t : ToolStateTracker) :
    List IterEvent → ToolStateTracker × List String × Option String
  | [] => (t, [], none)
  | .node n :: rest =>
      let (t', out) := processNode t n
      let (t'', outs, e) := runEvents t' rest
      (t'', out ++ outs, e)
  | .raised msg :: _ => (t, [], some msg)

/-- The result of one driver turn: everything printed, the returned output
string, and the returned message history. -/
structure RunOutcome where
  printed : List String
  output : String
  history : List ChatMessage
deriving Repr, DecidableEq

/-- `run_with_iter` of src/agent_test_iter.py, over the event stream the agent
iteration produces.  `message_history or []` is the input list (`none` and the
empty list coincide); printing is collected in `printed`. -/
def run_with_iter (user_input : String) (message_history : List ChatMessage)
    (events : List IterEvent) : RunOutcome :=
  let filtered_messages := message_history
  let (t, printed, err) := runEvents ToolStateTracker.init events
  match err with
  | some msg =>
      { printed := ["\nAgent: "] ++ printed ++ ["\n\nError: " ++ msg],
        output := "Error: " ++ msg,
        history := filtered_messages }
  | none =>
      let complete_output := t.get_complete_output
      let h1 := filtered_messages ++
        [⟨"user", user_input⟩, ⟨"assistant", complete_output⟩]
      let h2 := if h1.length > 10 then h1.drop (h1.length - 10) else h1
      { printed := ["\nAgent: "] ++ printed,
        output := complete_output,
        history := h2 }

/-- The accumulator text the tracker holds once the event stream has been
consumed up to completion or failure (the spec's "partial accumulator
output"). -/
def accumulatedText (events : List IterEvent) : String :=
  (runEvents ToolStateTracker.init events).1.final_output

/-- True when no event of the stream is an exception. -/
def noRaise (events : List IterEvent) : Bool :=
  events.all fun e =>
    match e with
    | .raised _ => false
    | _ => true

end Driver

namespace Filesystem

/-- A filesystem node: a regular file with its text content, or a directory.
Modification times are not tracked (no claim depends on them). -/
inductive FsNode where
  | file (content : String)
  | directory
deriving Repr, DecidableEq

/-- The filesystem state: a finite map from component paths (relative to the
root, which is also the working directory) to nodes.  Keys are kept unique by
the update functions. -/
structure FS where
  entries : List (List String × FsNode)
deriving Repr, DecidableEq

/-- The empty filesystem. -/
def FS.empty : FS := ⟨[]⟩

/-- The node at a path; the root `[]` always exists and is a directory. -/
def FS.nodeAt (fs : FS) (p : List String) : Option FsNode :=
  if p = [] then some .directory
  else (fs.entries.find? fun e => e.1 == p).map (·.2)

/-- `Path(p).exists()` -/
def FS.pathExists (fs : FS) (p : List String) : Bool :=
  (fs.nodeAt p).isSome

/-- Store a file at a path, replacing any node already there. -/
def FS.setFile (fs : FS) (p : List String) (content : String) : FS :=
  if fs.entries.any (fun e => e.1 == p) then
    ⟨fs.entries.map fun e => if e.1 == p then (p, .file content) else e⟩
  else ⟨fs.entries ++ [(p, .file content)]⟩

/-- Add a directory at a path when nothing is there yet. -/
def FS.addDir (fs : FS) (p : List String) : FS :=
  if fs.pathExists p then fs else ⟨fs.entries ++ [(p, .directory)]⟩

/-- Splitting a character list on `/`, mirroring `str.split("/")`. -/
def splitSlash : List Char → List Char → List String
  | [], cur => [String.mk cur.reverse]
  | c :: rest, cur =>
      if c = '/' then String.mk cur.reverse :: splitSlash rest []
      else splitSlash rest (c :: cur)

/-- The components of a path string: `Path(s)` with `.` as the working
directory, `/` as the root.  Empty components and `.` are dropped, as
`pathlib` does. -/
def parsePath (s : String) : List String :=
  (splitSlash s.toList []).filter fun c => c ≠ "" && c ≠ "."

/-- `str(path.absolute())` for a component path under the root working
directory. -/
def absString (p : List String) : String :=
  "/" ++ String.intercalate "/" p

/-- The nonempty prefixes of a path, shortest first. -/
def ancestorsOf (p : List String) : List (List String) :=
  (List.range p.length).map fun k => p.take (k + 1)

/-- `path.mkdir(parents=True)`: create every missing ancestor as a directory;
raises when some ancestor already exists as a regular file. -/
def mkdirParents (fs : FS) (p : List String) : Except String FS :=
  if (ancestorsOf p).all
      (fun q =>
        match fs.nodeAt q with
        | some (.file _) => false
        | _ => true) then
    .ok ((ancestorsOf p).foldl FS.addDir fs)
  else
    .error ("Not a directory: '" ++ absString p ++ "'")

/-- The direct children of a directory: the entries one component below it,
with their names. -/
def childrenOf (fs : FS) (d : List String) : List (String × FsNode) :=
  fs.entries.filterMap fun e =>
    match e.1.getLast? with
    | some name => if e.1.dropLast == d then some (name, e.2) else none
    | none => none

/-- Result dictionary of `list_files` of filesystem_mcp_fixed.py: the
not-found and exception branches return only the `error` key. -/
structure ListFilesResult where
  files : Option (List String)
  directories : Option (List String)
  path : Option String
  error : Option String
deriving Repr, DecidableEq

/-- Result dictionary of `read_file` of filesystem_mcp_fixed.py. -/
structure ReadFileResult where
  content : Option String
  size : Option Nat
  path : Option String
  error : Option String
deriving Repr, DecidableEq

/-- Result dictionary of `write_file` of filesystem_mcp_fixed.py: the
exception branch returns only the `error` key. -/
structure WriteFileResult where
  success : Option Bool
  message : Option String
  path : Option String
  error : Option String
deriving Repr, DecidableEq

/-- Result dictionary of `get_file_info` of filesystem_mcp_fixed.py.
`modified` (st_mtime) is not tracked by the model and reported as 0; a
directory's st_size is likewise reported as 0. -/
structure FileInfoResult where
  name : Option String
  size : Option Nat
  modified : Option Nat
  is_file : Option Bool
  is_dir : Option Bool
  path : Option String
  error : Option String
deriving Repr, DecidableEq

/-- `list_files` of filesystem_mcp_fixed.py.  A path that exists as a regular
file makes `path.iterdir()` raise NotADirectoryError, captured by the
handler's `except` into the `error` key. -/
def list_files (fs : FS) (directory : String) : ListFilesResult :=
  let path := parsePath directory
  match fs.nodeAt path with
  | none =>
      { files := none, directories := none, path := none,
        error := some ("Directory '" ++ directory ++ "' not found") }
  | some (.file _) =>
      { files := none, directories := none, path := none,
        error := some ("Not a directory: '" ++ directory ++ "'") }
  | some .directory =>
      let items := childrenOf fs path
      { files := some (items.filterMap fun it =>
          match it.2 with
          | .file _ => some it.1
          | _ => none),
        directories := some (items.filterMap fun it =>
          match it.2 with
          | .directory => some it.1
          | _ => none),
        path := some (absString path),
        error := none }

/-- `read_file` of filesystem_mcp_fixed.py.  `size` is `path.stat().st_size`,
the byte size of the stored UTF-8 content. -/
def read_file (fs : FS) (file_path : String) : ReadFileResult :=
  let path := parsePath file_path
  match fs.nodeAt path with
  | none =>
      { content := none, size := none, path := none,
        error := some ("File '" ++ file_path ++ "' not found") }
  | some .directory =>
      { content := none, size := none, path := none,
        error := some ("'" ++ file_path ++ "' is not a file") }
  | some (.file c) =>
      { content := some c, size := some c.utf8ByteSize,
        path := some (absString path), error := none }

/-- `write_file` of filesystem_mcp_fixed.py.  Parent directories are created
first when missing (side effects persist even when the subsequent
`write_text` raises, as in Python); a target that is a directory or a parent
that is a regular file makes `write_text` raise, captured into the `error`
key. -/
def write_file (fs : FS) (file_path : String) (content : String) :
    WriteFileResult × FS :=
  let path := parsePath file_path
  if path = [] then
    ({ success := none, message := none, path := none,
       error := some ("Invalid file path: '" ++ file_path ++ "'") }, fs)
  else
    let parent := path.dropLast
    match (if fs.pathExists parent then .ok fs else mkdirParents fs parent) with
    | .error e =>
        ({ success := none, message := none, path := none, error := some e }, fs)
    | .ok fs1 =>
        if fs1.nodeAt path == some .directory then
          ({ success := none, message := none, path := none,
             error := some ("Is a directory: '" ++ file_path ++ "'") }, fs1)
        else if !(fs1.nodeAt parent == some .directory) then
          ({ success := none, message := none, path := none,
             error := some ("Not a directory: '" ++ file_path ++ "'") }, fs1)
        else
          ({ success := some true,
             message := some ("Successfully wrote " ++ toString content.length ++
               " bytes to " ++ file_path),
             path := some (absString path), error := none },
           fs1.setFile path content)

/-- `get_file_info` of filesystem_mcp_fixed.py. -/
def get_file_info (fs : FS) (file_path : String) : FileInfoResult :=
  let path := parsePath file_path
  match fs.nodeAt path with
  | none =>
      { name := none, size := none, modified := none, is_file := none,
        is_dir := none, path := none,
        error := some ("File '" ++ file_path ++ "' not found") }
  | some n =>
      { name := some (path.getLastD ""),
        size := some (match n with | .file c => c.utf8ByteSize | .directory => 0),
        modified := some 0,
        is_file := some (match n with | .file _ => true | _ => false),
        is_dir := some (match n with | .directory => true | _ => false),
        path := some (absString path),
        error := none }

end Filesystem

namespace FastMcp

open Filesystem

/-- `ListFilesResponse` of src/mcp_servers/filesystem_mcp.py: `files`,
`directories` and `path` are required fields, `error` is optional. -/
structure ListFilesResponse where
  files : List String
  directories : List String
  path : String
  error : Option String
deriving Repr, DecidableEq

/-- `list_files` of src/mcp_servers/filesystem_mcp.py (the FastMCP variant):
on a missing directory it returns empty lists, `str(path)` (which for a plain
path string is the string itself) and the error; the exception branch keeps
the same shape. -/
def list_files (fs : FS) (directory : String) : ListFilesResponse :=
  let path := parsePath directory
  match fs.nodeAt path with
  | none =>
      { files := [], directories := [], path := directory,
        error := some ("Directory '" ++ directory ++ "' not found") }
  | some (.file _) =>
      { files := [], directories := [], path := directory,
        error := some ("Not a directory: '" ++ directory ++ "'") }
  | some .directory =>
      let items := childrenOf fs path
      { files := items.filterMap fun it =>
          match it.2 with
          | .file _ => some it.1
          | _ => none,
        directories := items.filterMap fun it =>
          match it.2 with
          | .directory => some it.1
          | _ => none,
        path := absString path,
        error := none }

end FastMcp

namespace Server

open Filesystem

/-- A parameter of a tool's input schema. -/
structure ParamSpec where
  name : String
  ptype : String
  description : String
deriving Repr, DecidableEq

/-- One entry of `get_tool_specs` of filesystem_mcp_fixed.py: name,
description, the schema's properties and its `required` list (absent for
`list_files`, modelled as the empty list). -/
structure ToolSpec where
  name : String
  description : String
  properties : List ParamSpec
  required : List String
deriving Repr, DecidableEq

/-- `get_tool_specs` of filesystem_mcp_fixed.py. -/
def get_tool_specs : List ToolSpec :=
  [ { name := "list_files",
      description := "List files and directories in the specified directory",
      properties :=
        [⟨"directory", "string", "Directory path to list (default: current directory)"⟩],
      required := [] },
    { name := "read_file",
      description := "Read the contents of a file",
      properties := [⟨"file_path", "string", "Path to the file to read"⟩],
      required := ["file_path"] },
    { name := "write_file",
      description := "Write content to a file",
      properties :=
        [⟨"file_path", "string", "Path to the file to write"⟩,
         ⟨"content", "string", "Content to write to the file"⟩],
      required := ["file_path", "content"] },
    { name := "get_file_info",
      description := "Get information about a file or directory",
      properties := [⟨"file_path", "string", "Path to the file or directory"⟩],
      required := ["file_path"] } ]

/-- A JSON parameter value as far as the handlers distinguish them: a string
is usable as a path or content, anything else makes `Path(...)` or
`write_text(...)` raise inside the handler. -/
inductive JsonValue where
  | str (s : String)
  | num (n : Int)
  | boolean (b : Bool)
  | null
deriving Repr, DecidableEq

/-- The `parameters` mapping of a request. -/
def Params := List (String × JsonValue)
deriving Repr, DecidableEq

/-- A parsed request dictionary: `request.get("method")`,
`request.get("function_name")`, `request.get("parameters", {})`. -/
structure Request where
  method : Option String
  function_name : Option String
  parameters : Option (List (String × JsonValue))
deriving Repr, DecidableEq

/-- The result payload of one dispatched operation. -/
inductive ToolResult where
  | listR (r : ListFilesResult)
  | readR (r : ReadFileResult)
  | writeR (r : WriteFileResult)
  | infoR (r : FileInfoResult)
deriving Repr, DecidableEq

/-- A response document of filesystem_mcp_fixed.py: the capability descriptor
(for method initialize), `{"result": ...}` or `{"error": ...}`. -/
inductive Response where
  | capsR (schema_version : String) (capabilities : List String)
      (tool_specs : List ToolSpec)
  | resultR (result : ToolResult)
  | errorR (error : String)
deriving Repr, DecidableEq

/-- How Python renders a possibly-absent string in an f-string. -/
def pyShowOpt : Option String → String
  | some s => s
  | none => "None"

/-- Keyword binding of `handler(**params)`: a `TypeError` (as a message) when
a key is not a parameter of the handler or a required parameter is missing,
the params otherwise.  The error is raised at the call boundary, before the
handler body runs. -/
def bindArgs (fname : String) (required optional : List String)
    (params : List (String × JsonValue)) :
    Except String (List (String × JsonValue)) :=
  match params.find? (fun kv => !((required ++ optional).contains kv.1)) with
  | some kv =>
      .error (fname ++ "() got an unexpected keyword argument '" ++ kv.1 ++ "'")
  | none =>
      match required.find? (fun k => !(params.any fun kv => kv.1 == k)) with
      | some k =>
          .error (fname ++ "() missing 1 required positional argument: '" ++
            k ++ "'")
      | none => .ok params

/-- Lookup of one bound parameter. -/
def lookupParam (params : List (String × JsonValue)) (k : String) :
    Option JsonValue :=
  (params.find? fun kv => kv.1 == k).map (·.2)

/-- A non-string value passed where a path or content string is expected:
the handler's own `try` captures the `TypeError` into its `error` key. -/
def typeErrorText : String := "expected str, bytes or os.PathLike object"

/-- `handle_request` of filesystem_mcp_fixed.py, with the filesystem state
threaded explicitly.  The `try`/`except` around the dispatch maps any
exception (here: keyword-binding failures) to `{"error": str(e)}`. -/
def handle_request (fs : FS) (req : Request) : Response × FS :=
  match req.method with
  | some "initialize" =>
      (.capsR "v1" ["function_calling"] get_tool_specs, fs)
  | some "execute_function" =>
      let params := req.parameters.getD []
      match req.function_name with
      | some "list_files" =>
          (match bindArgs "list_files" [] ["directory"] params with
           | .error e => (.errorR e, fs)
           | .ok ps =>
               match lookupParam ps "directory" with
               | none => (.resultR (.listR (list_files fs ".")), fs)
               | some (.str s) => (.resultR (.listR (list_files fs s)), fs)
               | some _ =>
                   (.resultR (.listR
                     { files := none, directories := none, path := none,
                       error := some typeErrorText }), fs))
      | some "read_file" =>
          (match bindArgs "read_file" ["file_path"] [] params with
           | .error e => (.errorR e, fs)
           | .ok ps =>
               match lookupParam ps "file_path" with
               | some (.str s) => (.resultR (.readR (read_file fs s)), fs)
               | _ =>
                   (.resultR (.readR
                     { content := none, size := none, path := none,
                       error := some typeErrorText }), fs))
      | some "write_file" =>
          (match bindArgs "write_file" ["file_path", "content"] [] params with
           | .error e => (.errorR e, fs)
           | .ok ps =>
               match lookupParam ps "file_path", lookupParam ps "content" with
               | some (.str p), some (.str c) =>
                   let (r, fs') := write_file fs p c
                   (.resultR (.writeR r), fs')
               | _, _ =>
                   (.resultR (.writeR
                     { success := none, message := none, path := none,
                       error := some typeErrorText }), fs))
      | some "get_file_info" =>
          (match bindArgs "get_file_info" ["file_path"] [] params with
           | .error e => (.errorR e, fs)
           | .ok ps =>
               match lookupParam ps "file_path" with
               | some (.str s) => (.resultR (.infoR (get_file_info fs s)), fs)
               | _ =>
                   (.resultR (.infoR
                     { name := none, size := none, modified := none,
                       is_file := none, is_dir := none, path := none,
                       error := some typeErrorText }), fs))
      | other => (.errorR ("Unknown function: " ++ pyShowOpt other), fs)
  | m => (.errorR ("Unknown method: " ++ pyShowOpt m), fs)

/-- One input line of the server's main loop, after `json.loads`: a parsed
request, or a `json.JSONDecodeError` with its message (the JSON grammar
itself is the standard library's and is not re-modelled). -/
inductive ServerLine where
  | okLine (req : Request)
  | badJson (detail : String)
deriving Repr, DecidableEq

/-- One iteration of the `while True` loop of `main` of
filesystem_mcp_fixed.py: the response printed for the line and the new
filesystem state. -/
def serverStep (fs : FS) (l : ServerLine) : Response × FS :=
  match l with
  | .okLine req => handle_request fs req
  | .badJson detail => (.errorR ("Invalid JSON: " ++ detail), fs)

/-- `main` of filesystem_mcp_fixed.py on a finite input stream: the responses
emitted in order and the final state.  The empty stream is `readline`
returning no data, upon which the loop breaks and shuts down cleanly. -/
def serverLoop (fs : FS) : List ServerLine → List Response × FS
  | [] => ([], fs)
  | l :: rest =>
      let (r, fs') := serverStep fs l
      let (rs, fs'') := serverLoop fs' rest
      (r :: rs, fs'')

end Server

namespace Filesystem

/-- Overwriting the binding of `p` in an association list makes the first
entry with key `p` hold the new file. -/
theorem find?_map_overwrite (p : List String) (c : String) :
    ∀ l : List (List String × FsNode), l.any (fun e => e.1 == p) = true →
      List.find? (fun e => e.1 == p)
          (l.map fun e => if e.1 == p then (p, FsNode.file c) else e) =
        some (p, FsNode.file c)
  | [], h => by simp at h
  | e :: t, h => by
      by_cases he : (e.1 == p) = true
      · have hpos : ((p, FsNode.file c).1 == p) = true := by simp
        rw [List.map_cons, if_pos he]
        simp only [List.find?, hpos]
      · have he' : (e.1 == p) = false := by simpa using he
        simp only [List.any_cons, he, Bool.false_or] at h
        rw [List.map_cons, if_neg he]
        simp only [List.find?, he']
        exact find?_map_overwrite p c t h

/-- Appending a fresh binding of `p` to an association list without one makes
it the entry found for `p`. -/
theorem find?_append_new (p : List String) (c : String)
    (l : List (List String × FsNode))
    (h : l.any (fun e => e.1 == p) = false) :
    List.find? (fun e => e.1 == p) (l ++ [(p, FsNode.file c)]) =
      some (p, FsNode.file c) := by
  have hnone : List.find? (fun e => e.1 == p) l = none := by
    rw [List.find?_eq_none]
    intro e he hc
    have hx : l.any (fun e => e.1 == p) = true := List.any_eq_true.mpr ⟨e, he, hc⟩
    rw [h] at hx
    exact Bool.false_ne_true hx
  rw [List.find?_append, hnone, Option.none_or]
  have hpos : ((p, FsNode.file c).1 == p) = true := by simp
  simp only [List.find?, hpos]

/-- After storing a file at `p`, `p` holds exactly that file. -/
theorem FS.nodeAt_setFile (fs : FS) (p : List String) (c : String)
    (hp : p ≠ []) : (fs.setFile p c).nodeAt p = some (.file c) := by
  have hshape : (fs.setFile p c).nodeAt p =
      Option.map (·.2)
        ((if fs.entries.any (fun e => e.1 == p) then
            fs.entries.map fun e => if e.1 == p then (p, FsNode.file c) else e
          else fs.entries ++ [(p, FsNode.file c)]).find? fun e => e.1 == p) := by
    unfold FS.setFile FS.nodeAt
    by_cases hany : fs.entries.any (fun e => e.1 == p) = true
    · rw [if_pos hany, if_pos hany, if_neg hp]
    · rw [if_neg hany, if_neg hany, if_neg hp]
  rw [hshape]
  cases hany : fs.entries.any (fun e => e.1 == p) with
  | true =>
      rw [if_pos rfl, find?_map_overwrite p c fs.entries hany]
      rfl
  | false =>
      rw [if_neg Bool.false_ne_true, find?_append_new p c fs.entries hany]
      rfl

end Filesystem

/-! ## Claim C5: write/read round-trip -/

/-- C5: whenever `write_file(p, c)` reports success, `read_file(p)` on the
resulting filesystem returns content `c`, size equal to the UTF-8 byte length
of `c`, the absolute path, and no error. -/
theorem c5_write_read_roundtrip (fs : Filesystem.FS) (p c : String)
    (h : (Filesystem.write_file fs p c).1.success = some true) :
    Filesystem.read_file (Filesystem.write_file fs p c).2 p =
      { content := some c, size := some c.utf8ByteSize,
        path := some (Filesystem.absString (Filesystem.parsePath p)),
        error := none } := by
  simp only [Filesystem.write_file] at h ⊢
  by_cases hp : Filesystem.parsePath p = []
  · simp [hp] at h
  · rw [if_neg hp] at h ⊢
    rcases hmk :
        (if fs.pathExists ((Filesystem.parsePath p).dropLast) then
           Except.ok fs
         else Filesystem.mkdirParents fs ((Filesystem.parsePath p).dropLast))
      with _ | fs1
    · simp [hmk] at h
    · simp only [hmk] at h ⊢
      by_cases hdir :
          (fs1.nodeAt (Filesystem.parsePath p) ==
            some Filesystem.FsNode.directory) = true
      · rw [if_pos hdir] at h
        simp at h
      · rw [if_neg hdir] at h ⊢
        by_cases hpar :
            (fs1.nodeAt ((Filesystem.parsePath p).dropLast) ==
              some Filesystem.FsNode.directory) = true
        · have hcond : ¬((!(fs1.nodeAt ((Filesystem.parsePath p).dropLast) ==
              some Filesystem.FsNode.directory)) = true) := by simp [hpar]
          rw [if_neg hcond]
          have hnode := Filesystem.FS.nodeAt_setFile fs1 (Filesystem.parsePath p) c hp
          simp [Filesystem.read_file, hnode]
        · have hcond : ((!(fs1.nodeAt ((Filesystem.parsePath p).dropLast) ==
              some Filesystem.FsNode.directory)) = true) := by simp [hpar]
          rw [if_pos hcond] at h
          simp at h

/-- Witness for C5: writing "hi" to "notes/a.txt" in the empty filesystem
succeeds, and reading it back returns the content and its byte size. -/
theorem c5_write_read_roundtrip_witness :
    Filesystem.read_file
        (Filesystem.write_file Filesystem.FS.empty "notes/a.txt" "hi").2
        "notes/a.txt" =
      { content := some "hi", size := some ("hi".utf8ByteSize),
        path := some (Filesystem.absString (Filesystem.parsePath "notes/a.txt")),
        error := none } :=
  c5_write_read_roundtrip Filesystem.FS.empty "notes/a.txt" "hi" (by decide)

/-! ## Claim C9: required schema fields are validated before dispatch -/

/-- C9: an execute_function request for a registered operation whose
parameters omit a field the operation's schema marks required is answered
with an error envelope and the filesystem state is untouched; the handler
body never runs on unvalidated input. -/
theorem c9_missing_required_field_rejected (fs : Filesystem.FS)
    (spec : Server.ToolSpec) (hspec : spec ∈ Server.get_tool_specs)
    (fld : String) (hfld : fld ∈ spec.required)
    (params : List (String × Server.JsonValue))
    (hmiss : ∀ kv ∈ params, kv.1 ≠ fld) :
    ∃ e, Server.handle_request fs
        { method := some "execute_function", function_name := some spec.name,
          parameters := some params } =
      (Server.Response.errorR e, fs) := by
  have hbind : ∀ (fname : String) (required optional : List String),
      fld ∈ required →
      ∃ e, Server.bindArgs fname required optional params = .error e := by
    intro fname required optional hreq
    unfold Server.bindArgs
    rcases hux : params.find? (fun kv => !((required ++ optional).contains kv.1))
      with _ | kv
    · have hmissb : (params.any fun kv => kv.1 == fld) = false := by
        rw [List.any_eq_false]
        intro kv hkv hc
        exact hmiss kv hkv (by simpa using hc)
      have h2 : (required.find? fun k => !(params.any fun kv => kv.1 == k)).isSome := by
        rw [List.find?_isSome]
        exact ⟨fld, hreq, by rw [hmissb]; rfl⟩
      obtain ⟨k, hk⟩ := Option.isSome_iff_exists.mp h2
      rw [hux, hk]
      exact ⟨_, rfl⟩
    · rw [hux]
      exact ⟨_, rfl⟩
  fin_cases hspec
  · simp at hfld
  · obtain ⟨e, he⟩ := hbind "read_file" ["file_path"] [] (by simpa using hfld)
    exact ⟨e, by simp [Server.handle_request, he]⟩
  · obtain ⟨e, he⟩ := hbind "write_file" ["file_path", "content"] []
      (by simpa using hfld)
    exact ⟨e, by simp [Server.handle_request, he]⟩
  · obtain ⟨e, he⟩ := hbind "get_file_info" ["file_path"] [] (by simpa using hfld)
    exact ⟨e, by simp [Server.handle_request, he]⟩

/-- Witness for C9: read_file with empty parameters is rejected with an error
envelope and the filesystem is unchanged. -/
theorem c9_missing_required_field_rejected_witness :
    ∃ e, Server.handle_request Filesystem.FS.empty
        { method := some "execute_function", function_name := some "read_file",
          parameters := some [] } =
      (Server.Response.errorR e, Filesystem.FS.empty) :=
  c9_missing_required_field_rejected Filesystem.FS.empty
    { name := "read_file",
      description := "Read the contents of a file",
      properties := [⟨"file_path", "string", "Path to the file to read"⟩],
      required := ["file_path"] }
    (by simp [Server.get_tool_specs]) "file_path" (by simp) [] (by simp)

namespace Windower

/-- Membership in a Python-set add. -/
theorem mem_setAdd_iff (x j : Nat) (s : List Nat) :
    x ∈ setAdd j s ↔ x = j ∨ x ∈ s := by
  unfold setAdd
  by_cases hj : j ∈ s
  · rw [if_pos hj]
    constructor
    · exact fun h => Or.inr h
    · rintro (rfl | h)
      · exact hj
      · exact h
  · rw [if_neg hj]
    simp [List.mem_append, or_comm]

/-- The repair loop's inner step only grows the included set. -/
theorem mem_repairStep_of_mem (c : String → Option Nat) (p : MessagePart)
    (s : List Nat) (x : Nat) (h : x ∈ s) : x ∈ repairStep c s p := by
  cases p with
  | toolReturnPart cid v =>
      simp only [repairStep]
      cases c cid with
      | some j => exact (mem_setAdd_iff x j s).mpr (Or.inr h)
      | none => exact h
  | systemPromptPart t => exact h
  | userPromptPart t => exact h
  | textPart t => exact h
  | toolCallPart a b d => exact h

/-- The inner part fold only grows the included set. -/
theorem mem_foldParts_of_mem (c : String → Option Nat) :
    ∀ (parts : List MessagePart) (s : List Nat) (x : Nat), x ∈ s →
      x ∈ parts.foldl (repairStep c) s
  | [], _, _, h => h
  | p :: rest, s, x, h =>
      mem_foldParts_of_mem c rest (repairStep c s p) x
        (mem_repairStep_of_mem c p s x h)

/-- `repairMsg` only grows the included set. -/
theorem mem_repairMsg_of_mem (c : String → Option Nat) (m : Message)
    (s : List Nat) (x : Nat) (h : x ∈ s) : x ∈ repairMsg c m s :=
  mem_foldParts_of_mem c m.parts s x h

/-- The repair loop only grows the included set. -/
theorem mem_repairLoop_of_mem (c : String → Option Nat) :
    ∀ (l : List Message) (i : Nat) (s : List Nat) (x : Nat), x ∈ s →
      x ∈ repairLoop c i l s
  | [], _, _, _, h => h
  | m :: rest, i, s, x, h => by
      show x ∈ repairLoop c (i + 1) rest (if i ∈ s then repairMsg c m s else s)
      by_cases hi : i ∈ s
      · rw [if_pos hi]
        exact mem_repairLoop_of_mem c rest (i + 1) _ x
          (mem_repairMsg_of_mem c m s x h)
      · rw [if_neg hi]
        exact mem_repairLoop_of_mem c rest (i + 1) s x h

/-- Messages of a selection come from the selected list. -/
theorem mem_of_mem_selectFrom (s : List Nat) :
    ∀ (l : List Message) (n : Nat) (m : Message),
      m ∈ selectFrom s n l → m ∈ l
  | [], _, _, h => by simp [selectFrom] at h
  | m0 :: rest, n, m, h => by
      by_cases hn : n ∈ s
      · rw [selectFrom, if_pos hn] at h
        rcases List.mem_cons.mp h with rfl | h2
        · exact List.mem_cons_self _ _
        · exact List.mem_cons_of_mem m0 (mem_of_mem_selectFrom s rest (n + 1) m h2)
      · rw [selectFrom, if_neg hn] at h
        exact List.mem_cons_of_mem m0 (mem_of_mem_selectFrom s rest (n + 1) m h)

/-- Lower bound on the length of a selection: if the last `k` index positions
of the window are all in the set, at least `k` messages are selected. -/
theorem selectFrom_length_lower :
    ∀ (l : List Message) (n k : Nat) (s : List Nat), k ≤ l.length →
      (∀ j, n + l.length - k ≤ j → j < n + l.length → j ∈ s) →
      k ≤ (selectFrom s n l).length := by
  intro l
  induction l with
  | nil =>
      intro n k s hk _
      exact hk
  | cons m t ih =>
      intro n k s hk hcov
      simp only [List.length_cons] at hk hcov
      by_cases hkfull : k = t.length + 1
      · subst hkfull
        have hn : n ∈ s := by
          apply hcov n
          · omega
          · omega
        rw [selectFrom, if_pos hn]
        have hrec := ih (n + 1) t.length s (le_refl _)
          (fun j h1 h2 => hcov j (by omega) (by omega))
        simpa using Nat.succ_le_succ hrec
      · have hk' : k ≤ t.length := by omega
        have hrec := ih (n + 1) k s hk'
          (fun j h1 h2 => hcov j (by omega) (by omega))
        rw [selectFrom]
        by_cases hn : n ∈ s
        · rw [if_pos hn]
          calc k ≤ (selectFrom s (n + 1) t).length := hrec
          _ ≤ (m :: selectFrom s (n + 1) t).length := by simp
        · rw [if_neg hn]
          exact hrec

end Windower

namespace Windower

/-- A message with no tool part has no call ids and no return ids. -/
theorem callIds_returnIds_of_no_tool (m : Message)
    (h : hasToolPart m = false) : callIds m = [] ∧ returnIds m = [] := by
  unfold hasToolPart at h
  rw [List.any_eq_false] at h
  constructor
  · unfold callIds
    rw [List.filterMap_eq_nil_iff]
    intro p hp
    cases p with
    | toolCallPart a b d => exact (False.elim (by simpa using h _ hp))
    | systemPromptPart t => rfl
    | userPromptPart t => rfl
    | textPart t => rfl
    | toolReturnPart a b => rfl
  · unfold returnIds
    rw [List.filterMap_eq_nil_iff]
    intro p hp
    cases p with
    | toolReturnPart a b => exact (False.elim (by simpa using h _ hp))
    | systemPromptPart t => rfl
    | userPromptPart t => rfl
    | textPart t => rfl
    | toolCallPart a b d => rfl

/-- Dropping messages that carry no calls and no returns preserves the
pairing invariant. -/
theorem pairedFrom_filter (p : Message → Bool) :
    ∀ (l : List Message) (avail : List String),
      (∀ m ∈ l, p m = false → callIds m = [] ∧ returnIds m = []) →
      pairedFrom avail l = true → pairedFrom avail (l.filter p) = true
  | [], avail, _, h => h
  | m :: t, avail, hdrop, h => by
      simp only [pairedFrom, Bool.and_eq_true] at h
      by_cases hpm : p m = true
      · rw [List.filter_cons_of_pos hpm]
        simp only [pairedFrom, Bool.and_eq_true]
        exact ⟨h.1, pairedFrom_filter p t (avail ++ callIds m)
          (fun x hx => hdrop x (List.mem_cons_of_mem m hx)) h.2⟩
      · have hpm' : p m = false := by
          cases hv : p m
          · rfl
          · exact absurd hv hpm
        obtain ⟨hc, hr⟩ := hdrop m (List.mem_cons_self m t) hpm'
        rw [List.filter_cons_of_neg (by simp [hpm'])]
        have h2 := h.2
        rw [hc, List.append_nil] at h2
        exact pairedFrom_filter p t avail
          (fun x hx => hdrop x (List.mem_cons_of_mem m hx)) h2

/-- Index form of the pairing invariant: a return id at position `k` is
available from the context or has a call at a position `j ≤ k`. -/
theorem pairedFrom_index :
    ∀ (l : List Message) (avail : List String),
      pairedFrom avail l = true →
      ∀ k, k < l.length → ∀ id ∈ returnIds (l.getD k default),
        id ∈ avail ∨ ∃ j, j ≤ k ∧ id ∈ callIds (l.getD j default)
  | [], _, _, k, hk => by simp at hk
  | m :: t, avail, h, k, hk => by
      simp only [pairedFrom, Bool.and_eq_true] at h
      cases k with
      | zero =>
          intro id hid
          have hall := h.1
          rw [List.all_eq_true] at hall
          have := hall id (by simpa using hid)
          rcases List.mem_append.mp (by simpa using this) with ha | hc
          · exact Or.inl ha
          · exact Or.inr ⟨0, le_refl 0, by simpa using hc⟩
      | succ k' =>
          intro id hid
          have hk' : k' < t.length := by
            simp only [List.length_cons] at hk
            omega
          have hrec := pairedFrom_index t (avail ++ callIds m) h.2 k' hk' id
            (by simpa using hid)
          rcases hrec with ha | ⟨j, hj, hcj⟩
          · rcases List.mem_append.mp ha with h1 | h2
            · exact Or.inl h1
            · exact Or.inr ⟨0, Nat.zero_le _, by simpa using h2⟩
          · exact Or.inr ⟨j + 1, Nat.succ_le_succ hj, by simpa using hcj⟩

/-- Prepending a message with no calls and no returns preserves pairing. -/
theorem paired_cons_clean (sys : Message) (tail : List Message)
    (hc : callIds sys = []) (hr : returnIds sys = [])
    (h : pairedFrom [] tail = true) : paired (sys :: tail) = true := by
  unfold paired
  simp only [pairedFrom, hc, hr, List.all_nil, List.append_nil, Bool.true_and]
  exact h

/-- A selection is paired when each selected return has a selected call at the
same or an earlier index. -/
theorem selectFrom_paired (s : List Nat) :
    ∀ (l : List Message) (n : Nat) (avail : List String),
      (∀ k, k < l.length → (n + k) ∈ s →
        ∀ id ∈ returnIds (l.getD k default),
          id ∈ avail ∨ ∃ j, j ≤ k ∧ (n + j) ∈ s ∧
            id ∈ callIds (l.getD j default)) →
      pairedFrom avail (selectFrom s n l) = true
  | [], _, _, _ => rfl
  | m :: t, n, avail, ha => by
      by_cases hn : n ∈ s
      · rw [selectFrom, if_pos hn]
        simp only [pairedFrom, Bool.and_eq_true]
        constructor
        · rw [List.all_eq_true]
          intro id hid
          have h0 := ha 0 (by simp) (by simpa using hn) id (by simpa using hid)
          rcases h0 with hav | ⟨j, hj, _, hcj⟩
          · simp [List.mem_append, hav]
          · have hj0 : j = 0 := Nat.le_zero.mp hj
            subst hj0
            simp only [List.getD_cons_zero] at hcj
            simp [List.mem_append, hcj]
        · apply selectFrom_paired s t (n + 1) (avail ++ callIds m)
          intro k hk hks id hid
          have hrec := ha (k + 1) (by simpa using Nat.succ_lt_succ hk)
            (by
              have : n + (k + 1) = n + 1 + k := by omega
              rw [this]
              exact hks)
            id (by simpa using hid)
          rcases hrec with hav | ⟨j, hj, hjs, hcj⟩
          · exact Or.inl (List.mem_append.mpr (Or.inl hav))
          · cases j with
            | zero =>
                simp only [List.getD_cons_zero] at hcj
                exact Or.inl (List.mem_append.mpr (Or.inr hcj))
            | succ j' =>
                refine Or.inr ⟨j', Nat.lt_succ_iff.mp (Nat.lt_of_succ_le hj), ?_, ?_⟩
                · have : n + 1 + j' = n + (j' + 1) := by omega
                  rw [this]
                  exact hjs
                · simpa using hcj
      · rw [selectFrom, if_neg hn]
        apply selectFrom_paired s t (n + 1) avail
        intro k hk hks id hid
        have hrec := ha (k + 1) (by simpa using Nat.succ_lt_succ hk)
          (by
            have : n + (k + 1) = n + 1 + k := by omega
            rw [this]
            exact hks)
          id (by simpa using hid)
        rcases hrec with hav | ⟨j, hj, hjs, hcj⟩
        · exact Or.inl hav
        · cases j with
          | zero =>
              exfalso
              apply hn
              simpa using hjs
          | succ j' =>
              refine Or.inr ⟨j', Nat.lt_succ_iff.mp (Nat.lt_of_succ_le hj), ?_, ?_⟩
              · have : n + 1 + j' = n + (j' + 1) := by omega
                rw [this]
                exact hjs
              · simpa using hcj

/-- Processing a message whose returns include `id` inserts the dict's call
index for `id`. -/
theorem mem_foldParts_insert (c : String → Option Nat) (id : String) (j : Nat)
    (hc : c id = some j) :
    ∀ (parts : List MessagePart) (s : List Nat),
      id ∈ parts.filterMap (fun p =>
        match p with
        | MessagePart.toolReturnPart cid _ => some cid
        | _ => none) →
      j ∈ parts.foldl (repairStep c) s
  | [], s, hid => by simp at hid
  | p :: rest, s, hid => by
      cases p with
      | toolReturnPart cid v =>
          rw [List.filterMap_cons] at hid
          simp only [List.mem_cons] at hid
          rcases hid with rfl | hid2
          · have hstep : repairStep c s (MessagePart.toolReturnPart id v) =
                setAdd j s := by
              simp [repairStep, hc]
            rw [List.foldl_cons, hstep]
            exact mem_foldParts_of_mem c rest (setAdd j s) j
              ((mem_setAdd_iff j j s).mpr (Or.inl rfl))
          · exact mem_foldParts_insert c id j hc rest _ hid2
      | systemPromptPart t =>
          rw [List.filterMap_cons] at hid
          exact mem_foldParts_insert c id j hc rest _ (by simpa using hid)
      | userPromptPart t =>
          rw [List.filterMap_cons] at hid
          exact mem_foldParts_insert c id j hc rest _ (by simpa using hid)
      | textPart t =>
          rw [List.filterMap_cons] at hid
          exact mem_foldParts_insert c id j hc rest _ (by simpa using hid)
      | toolCallPart a b d =>
          rw [List.filterMap_cons] at hid
          exact mem_foldParts_insert c id j hc rest _ (by simpa using hid)

/-- `repairMsg` inserts the dict's call index for every return id of the
message. -/
theorem mem_repairMsg_insert (c : String → Option Nat) (m : Message)
    (s : List Nat) (id : String) (j : Nat) (hid : id ∈ returnIds m)
    (hc : c id = some j) : j ∈ repairMsg c m s :=
  mem_foldParts_insert c id j hc m.parts s hid

/-- The repair loop processes every index of the initial window: a return id
at such an index gets its dict call index into the final set. -/
theorem repairLoop_adds (c : String → Option Nat) :
    ∀ (l : List Message) (i : Nat) (s0 : List Nat) (k : Nat),
      k < l.length → (i + k) ∈ s0 →
      ∀ id ∈ returnIds (l.getD k default), ∀ j, c id = some j →
        j ∈ repairLoop c i l s0
  | [], _, _, k, hk => by simp at hk
  | m :: t, i, s0, k, hk => by
      intro hks id hid j hc
      show j ∈ repairLoop c (i + 1) t (if i ∈ s0 then repairMsg c m s0 else s0)
      cases k with
      | zero =>
          have hi : i ∈ s0 := by simpa using hks
          rw [if_pos hi]
          apply mem_repairLoop_of_mem
          exact mem_repairMsg_insert c m s0 id j (by simpa using hid) hc
      | succ k' =>
          have hk' : k' < t.length := by
            simp only [List.length_cons] at hk
            omega
          have hin : (i + 1 + k') ∈ (if i ∈ s0 then repairMsg c m s0 else s0) := by
            have heq : i + 1 + k' = i + (k' + 1) := by omega
            rw [heq]
            by_cases hi : i ∈ s0
            · rw [if_pos hi]
              exact mem_repairMsg_of_mem c m s0 _ hks
            · rw [if_neg hi]
              exact hks
          exact repairLoop_adds c t (i + 1) _ k' hk' hin id
            (by simpa using hid) j hc

/-- Where elements of the repair step can come from. -/
theorem mem_repairStep_cases (c : String → Option Nat) (p : MessagePart)
    (s : List Nat) (x : Nat) (h : x ∈ repairStep c s p) :
    x ∈ s ∨ ∃ id, c id = some x := by
  cases p with
  | toolReturnPart cid v =>
      simp only [repairStep] at h
      cases hc : c cid with
      | some j =>
          rw [hc] at h
          rcases (mem_setAdd_iff x j s).mp h with rfl | hs
          · exact Or.inr ⟨cid, hc⟩
          · exact Or.inl hs
      | none =>
          rw [hc] at h
          exact Or.inl h
  | systemPromptPart t => exact Or.inl h
  | userPromptPart t => exact Or.inl h
  | textPart t => exact Or.inl h
  | toolCallPart a b d => exact Or.inl h

/-- Where elements of the part fold can come from. -/
theorem mem_foldParts_cases (c : String → Option Nat) :
    ∀ (parts : List MessagePart) (s : List Nat) (x : Nat),
      x ∈ parts.foldl (repairStep c) s →
      x ∈ s ∨ ∃ id, c id = some x
  | [], _, _, h => Or.inl h
  | p :: rest, s, x, h => by
      rcases mem_foldParts_cases c rest (repairStep c s p) x h with h2 | h2
      · exact mem_repairStep_cases c p s x h2
      · exact Or.inr h2

/-- Where elements of the repair loop can come from: the initial window or
the range of the call-index dict. -/
theorem mem_repairLoop_cases (c : String → Option Nat) :
    ∀ (l : List Message) (i : Nat) (s0 : List Nat) (x : Nat),
      x ∈ repairLoop c i l s0 →
      x ∈ s0 ∨ ∃ id, c id = some x
  | [], _, _, _, h => Or.inl h
  | m :: t, i, s0, x, h => by
      have h1 := mem_repairLoop_cases c t (i + 1)
        (if i ∈ s0 then repairMsg c m s0 else s0) x h
      rcases h1 with h2 | h2
      · by_cases hi : i ∈ s0
        · rw [if_pos hi] at h2
          exact mem_foldParts_cases c m.parts s0 x h2
        · rw [if_neg hi] at h2
          exact Or.inl h2
      · exact Or.inr h2

/-- Entries of the call-id dict list: position bounds and origin. -/
theorem toolCallIdsList_mem (e : String × Nat) :
    ∀ (l : List Message) (i : Nat), e ∈ toolCallIdsList i l →
      i ≤ e.2 ∧ e.2 < i + l.length ∧ e.1 ∈ callIds (l.getD (e.2 - i) default)
  | [], i, h => by simp [toolCallIdsList] at h
  | m :: t, i, h => by
      rw [toolCallIdsList] at h
      rcases List.mem_append.mp h with h1 | h1
      · obtain ⟨cid, hcid, rfl⟩ := List.mem_map.mp h1
        refine ⟨le_refl i, ?_, ?_⟩
        · simp only [List.length_cons]
          omega
        · simpa using hcid
      · obtain ⟨hle, hlt, hmem⟩ := toolCallIdsList_mem e t (i + 1) h1
        refine ⟨by omega, ?_, ?_⟩
        · simp only [List.length_cons]
          omega
        · have heq : e.2 - i = (e.2 - (i + 1)) + 1 := by omega
          rw [heq]
          simpa using hmem

/-- Converse: a call id at index `k` contributes the entry `(id, i + k)`. -/
theorem toolCallIdsList_mem_of_callIds (id : String) :
    ∀ (l : List Message) (i k : Nat), k < l.length →
      id ∈ callIds (l.getD k default) →
      (id, i + k) ∈ toolCallIdsList i l
  | [], _, k, hk, _ => by simp at hk
  | m :: t, i, k, hk, hid => by
      rw [toolCallIdsList]
      cases k with
      | zero =>
          apply List.mem_append.mpr (Or.inl ?_)
          apply List.mem_map.mpr
          exact ⟨id, by simpa using hid, rfl⟩
      | succ k' =>
          apply List.mem_append.mpr (Or.inr ?_)
          have hk' : k' < t.length := by
            simp only [List.length_cons] at hk
            omega
          have := toolCallIdsList_mem_of_callIds id t (i + 1) k' hk'
            (by simpa using hid)
          have heq : i + (k' + 1) = i + 1 + k' := by omega
          rw [heq]
          exact this

/-- The keys of the call-id dict list are the call ids in order. -/
theorem toolCallIdsList_keys :
    ∀ (l : List Message) (i : Nat),
      (toolCallIdsList i l).map Prod.fst = (l.map callIds).join
  | [], _ => rfl
  | m :: t, i => by
      rw [toolCallIdsList, List.map_append, List.map_map]
      have h1 : (Prod.fst ∘ fun cid => ((cid, i) : String × Nat)) = id := rfl
      rw [h1, List.map_id, toolCallIdsList_keys t (i + 1)]
      rfl

/-- Finding in an association list with distinct keys returns the unique
binding. -/
theorem find?_eq_of_nodup_keys (id : String) (v : Nat) :
    ∀ al : List (String × Nat), (al.map Prod.fst).Nodup → (id, v) ∈ al →
      al.find? (fun e => e.fst == id) = some (id, v)
  | [], _, hm => by simp at hm
  | e :: t, hnd, hm => by
      simp only [List.map_cons, List.nodup_cons] at hnd
      rcases List.mem_cons.mp hm with rfl | hm2
      · exact List.find?_cons_of_pos _ (by simp)
      · have hne : (e.fst == id) = false := by
          have : id ∈ t.map Prod.fst :=
            List.mem_map.mpr ⟨(id, v), hm2, rfl⟩
          by_cases he : e.fst = id
          · exact absurd (he ▸ this) hnd.1
          · simpa using he
        rw [List.find?_cons_of_neg _ (by simp [hne])]
        exact find?_eq_of_nodup_keys id v t hnd.2 hm2

/-- With globally distinct call ids, the dict maps each call id to its unique
message index. -/
theorem dictLookup_eq_of_nodup (l : List Message) (id : String) (k : Nat)
    (hnd : ((l.map callIds).join).Nodup) (hk : k < l.length)
    (hid : id ∈ callIds (l.getD k default)) :
    dictLookup (toolCallIdsList 0 l) id = some k := by
  have hmem : (id, k) ∈ toolCallIdsList 0 l := by
    have := toolCallIdsList_mem_of_callIds id l 0 k hk hid
    simpa using this
  have hkeys : ((toolCallIdsList 0 l).map Prod.fst).Nodup := by
    rw [toolCallIdsList_keys]
    exact hnd
  have hrev : ((toolCallIdsList 0 l).reverse.map Prod.fst).Nodup := by
    rw [List.map_reverse]
    exact (List.nodup_reverse).mpr hkeys
  have hmemr : (id, k) ∈ (toolCallIdsList 0 l).reverse :=
    List.mem_reverse.mpr hmem
  unfold dictLookup
  rw [find?_eq_of_nodup_keys id k _ hrev hmemr]
  rfl

/-- The dict maps ids only to indices of messages carrying a matching call. -/
theorem dictLookup_sound (l : List Message) (id : String) (j : Nat)
    (h : dictLookup (toolCallIdsList 0 l) id = some j) :
    j < l.length ∧ id ∈ callIds (l.getD j default) := by
  unfold dictLookup at h
  cases hf : (toolCallIdsList 0 l).reverse.find? (fun e => e.fst == id) with
  | none => rw [hf] at h; simp at h
  | some e =>
      rw [hf] at h
      have he2 : e.2 = j := by simpa using h
      have hmem : e ∈ toolCallIdsList 0 l :=
        List.mem_reverse.mp (List.mem_of_find?_eq_some hf)
      have heid : e.1 = id := by
        have := List.find?_some hf
        simpa using this
      obtain ⟨_, hlt, hcall⟩ := toolCallIdsList_mem e l 0 hmem
      subst he2
      subst heid
      constructor
      · omega
      · simpa using hcall

/-- Sublists of the outer list give sublists of the join. -/
theorem join_sublist_of_sublist :
    ∀ {l1 l2 : List (List String)}, l1.Sublist l2 → l1.join.Sublist l2.join := by
  intro l1 l2 h
  induction h with
  | slnil => exact List.Sublist.refl _
  | cons a h ih =>
      simp only [List.join]
      exact ih.trans (List.sublist_append_right _ _)
  | cons₂ a h ih =>
      simp only [List.join]
      exact ih.append_left a

end Windower

/-! ## Claim C1: the pairing invariant of the windower -/

/-- C1 counterexample: a well-formed 7-message history (every return follows
its call) where message 1 carries both `ToolReturn A` and `ToolCall B`.  With
limit 5 the repair loop adds message 1 back for `ToolReturn B` only after the
iteration has passed position 1, so `ToolReturn A` ends up in the output
without `ToolCall A`: the windower output violates the pairing invariant. -/
theorem c1_orphaned_return_cex :
    Windower.paired
        [⟨[Windower.MessagePart.toolCallPart "A" "t" []]⟩,
         ⟨[Windower.MessagePart.toolReturnPart "A" "r",
           Windower.MessagePart.toolCallPart "B" "t" []]⟩,
         ⟨[Windower.MessagePart.textPart "x1"]⟩,
         ⟨[Windower.MessagePart.textPart "x2"]⟩,
         ⟨[Windower.MessagePart.textPart "x3"]⟩,
         ⟨[Windower.MessagePart.textPart "x4"]⟩,
         ⟨[Windower.MessagePart.toolReturnPart "B" "r"]⟩] = true ∧
    Windower.paired
        (Windower.filtered_message_history
          [⟨[Windower.MessagePart.toolCallPart "A" "t" []]⟩,
           ⟨[Windower.MessagePart.toolReturnPart "A" "r",
             Windower.MessagePart.toolCallPart "B" "t" []]⟩,
           ⟨[Windower.MessagePart.textPart "x1"]⟩,
           ⟨[Windower.MessagePart.textPart "x2"]⟩,
           ⟨[Windower.MessagePart.textPart "x3"]⟩,
           ⟨[Windower.MessagePart.textPart "x4"]⟩,
           ⟨[Windower.MessagePart.toolReturnPart "B" "r"]⟩]
          (some 5) true) = false := by
  refine ⟨?_, ?_⟩ <;> decide

/-- C1 amended: for well-formed histories — pairing invariant holds on the
input, no message mixes `ToolCall` and `ToolReturn` parts, messages with a
`SystemPrompt` part carry no tool parts, and no tool_call_id is used by two
`ToolCall` parts — the windower's output satisfies the pairing invariant for
every limit. -/
theorem c1_windower_pairing_on_wellformed (messages : List Windower.Message)
    (limit : Option Int)
    (hp : Windower.paired messages = true)
    (hmix : ∀ m ∈ messages,
      Windower.callIds m = [] ∨ Windower.returnIds m = [])
    (hsys : ∀ m ∈ messages, Windower.hasSystemPart m = true →
      Windower.hasToolPart m = false)
    (huniq : ((messages.map Windower.callIds).join).Nodup) :
    Windower.paired
      (Windower.filtered_message_history messages limit true) = true := by
  have hdrop : ∀ m ∈ messages, (!Windower.hasSystemPart m) = false →
      Windower.callIds m = [] ∧ Windower.returnIds m = [] := by
    intro m hm hneg
    apply Windower.callIds_returnIds_of_no_tool
    apply hsys m hm
    cases hx : Windower.hasSystemPart m
    · rw [hx] at hneg
      simp at hneg
    · rfl
  have hrest_mem : ∀ m ∈ messages.filter (fun m => !Windower.hasSystemPart m),
      m ∈ messages := fun m hm => (List.mem_filter.mp hm).1
  have hrest_paired : Windower.pairedFrom []
      (messages.filter (fun m => !Windower.hasSystemPart m)) = true :=
    Windower.pairedFrom_filter _ messages [] hdrop hp
  have hrest_mix : ∀ m ∈ messages.filter (fun m => !Windower.hasSystemPart m),
      Windower.callIds m = [] ∨ Windower.returnIds m = [] :=
    fun m hm => hmix m (hrest_mem m hm)
  have hrest_uniq :
      (((messages.filter (fun m => !Windower.hasSystemPart m)).map
        Windower.callIds).join).Nodup := by
    have hsl : ((messages.filter (fun m => !Windower.hasSystemPart m)).map
        Windower.callIds).Sublist (messages.map Windower.callIds) :=
      (List.filter_sublist _).map _
    exact List.Nodup.sublist (Windower.join_sublist_of_sublist hsl) huniq
  have hprefix : ∀ tail : List Windower.Message,
      Windower.pairedFrom [] tail = true →
      Windower.paired
        ((match messages.find? Windower.hasSystemPart with
          | some m => [m]
          | none => []) ++ tail) = true := by
    intro tail htail
    cases hfind : messages.find? Windower.hasSystemPart with
    | none =>
        show Windower.paired ([] ++ tail) = true
        rw [List.nil_append]
        exact htail
    | some sys =>
        have hmem : sys ∈ messages := List.mem_of_find?_eq_some hfind
        have hsysp : Windower.hasSystemPart sys = true := List.find?_some hfind
        obtain ⟨hc, hr⟩ :=
          Windower.callIds_returnIds_of_no_tool sys (hsys sys hmem hsysp)
        show Windower.paired (sys :: tail) = true
        exact Windower.paired_cons_clean sys tail hc hr htail
  simp only [Windower.filtered_message_history, if_true]
  set rest := messages.filter (fun m => !Windower.hasSystemPart m) with hrestdef
  have hidx : ∀ k, k < rest.length →
      ∀ id ∈ Windower.returnIds (rest.getD k default),
        ∃ j, j ≤ k ∧ id ∈ Windower.callIds (rest.getD j default) := by
    intro k hk id hid
    rcases Windower.pairedFrom_index rest [] hrest_paired k hk id hid
      with hav | h
    · simp at hav
    · exact h
  cases limit with
  | none => exact hprefix rest hrest_paired
  | some l =>
      show Windower.paired
        ((match messages.find? Windower.hasSystemPart with
          | some m => [m]
          | none => []) ++
          (if l > 0 then
            (if (rest.length : Int) > l then
              Windower.selectFrom
                (Windower.repairLoop
                  (Windower.dictLookup (Windower.toolCallIdsList 0 rest)) 0 rest
                  (List.range' (rest.length - l.toNat) l.toNat))
                0 rest
             else rest)
           else rest)) = true
      by_cases hl : l > 0
      · rw [if_pos hl]
        by_cases h2 : ((rest.length : Int) > l)
        · rw [if_pos h2]
          apply hprefix
          apply Windower.selectFrom_paired
          intro k hk hks id hid
          have hks' : k ∈ Windower.repairLoop
              (Windower.dictLookup (Windower.toolCallIdsList 0 rest)) 0 rest
              (List.range' (rest.length - l.toNat) l.toNat) := by
            simpa using hks
          rcases Windower.mem_repairLoop_cases _ rest 0 _ k hks'
            with hkw | ⟨id', hcid⟩
          · -- k is in the initial window: repair added its call index
            obtain ⟨j, hjk, hcj⟩ := hidx k hk id hid
            have hjlen : j < rest.length := lt_of_le_of_lt hjk hk
            have hcidx : Windower.dictLookup
                (Windower.toolCallIdsList 0 rest) id = some j :=
              Windower.dictLookup_eq_of_nodup rest id j hrest_uniq hjlen hcj
            have hjS := Windower.repairLoop_adds
              (Windower.dictLookup (Windower.toolCallIdsList 0 rest)) rest 0
              (List.range' (rest.length - l.toNat) l.toNat) k hk
              (by simp only [Nat.zero_add]; exact hkw) id hid j hcidx
            exact Or.inr ⟨j, hjk, by simpa using hjS, hcj⟩
          · -- k came from the dict: its message carries a call, hence no returns
            obtain ⟨hklen, hcall⟩ := Windower.dictLookup_sound rest id' k hcid
            have hmemk : rest.getD k default ∈ rest := by
              rw [List.getD_eq_getElem rest default hk]
              exact List.getElem_mem hk
            rcases hrest_mix _ hmemk with hcnil | hrnil
            · rw [hcnil] at hcall
              simp at hcall
            · rw [hrnil] at hid
              simp at hid
        · rw [if_neg h2]
          exact hprefix rest hrest_paired
      · rw [if_neg hl]
        exact hprefix rest hrest_paired

/-- Witness for C1 at a concrete well-formed history whose repair step fires:
[call A, text, return A] with limit 1 keeps the call with its return. -/
theorem c1_windower_pairing_on_wellformed_witness :
    Windower.paired
      (Windower.filtered_message_history
        [⟨[Windower.MessagePart.toolCallPart "A" "t" []]⟩,
         ⟨[Windower.MessagePart.textPart "x"]⟩,
         ⟨[Windower.MessagePart.toolReturnPart "A" "r"]⟩]
        (some 1) true) = true :=
  c1_windower_pairing_on_wellformed
    [⟨[Windower.MessagePart.toolCallPart "A" "t" []]⟩,
     ⟨[Windower.MessagePart.textPart "x"]⟩,
     ⟨[Windower.MessagePart.toolReturnPart "A" "r"]⟩]
    (some 1) (by decide) (by decide) (by decide) (by decide)

/-! ## Claim C4: windower floor and system-first -/

/-- C4: with tool messages included and a positive limit, the output retains
at least `min(limit, len(rest))` non-system messages, and when the input has
a message with a `SystemPrompt` part, that (first such) message is the head
of the output. -/
theorem c4_windower_floor_and_system_first (messages : List Windower.Message)
    (l : Int) (hl : 0 < l) :
    min l.toNat (messages.filter fun m => !Windower.hasSystemPart m).length ≤
      ((Windower.filtered_message_history messages (some l) true).filter
        fun m => !Windower.hasSystemPart m).length ∧
    (messages.find? Windower.hasSystemPart = none ∨
      (Windower.filtered_message_history messages (some l) true).head? =
        messages.find? Windower.hasSystemPart) := by
  have hrest : ∀ m ∈ messages.filter (fun m => !Windower.hasSystemPart m),
      (!Windower.hasSystemPart m) = true := fun m hm =>
    (List.mem_filter.mp hm).2
  simp only [Windower.filtered_message_history, if_pos hl, if_true]
  set rest := messages.filter (fun m => !Windower.hasSystemPart m) with hrestdef
  set callIdx := Windower.dictLookup (Windower.toolCallIdsList 0 rest) with hcdef
  by_cases h2 : (rest.length : Int) > l
  · rw [if_pos h2]
    set w : List Nat := List.range' (rest.length - l.toNat) l.toNat with hwdef
    set s := Windower.repairLoop callIdx 0 rest w with hsdef
    have hsel : ∀ m ∈ Windower.selectFrom s 0 rest,
        (!Windower.hasSystemPart m) = true := fun m hm =>
      hrest m (Windower.mem_of_mem_selectFrom s rest 0 m hm)
    have hfilter_sel :
        (Windower.selectFrom s 0 rest).filter
          (fun m => !Windower.hasSystemPart m) =
        Windower.selectFrom s 0 rest := List.filter_eq_self.mpr hsel
    have hcount : l.toNat ≤ (Windower.selectFrom s 0 rest).length := by
      apply Windower.selectFrom_length_lower rest 0 l.toNat s (by omega)
      intro j hj1 hj2
      apply Windower.mem_repairLoop_of_mem
      rw [hwdef, List.mem_range'_1]
      omega
    constructor
    · have hmin : min l.toNat rest.length = l.toNat := by
        apply min_eq_left
        omega
      rw [hmin]
      cases hfind : messages.find? Windower.hasSystemPart with
      | none =>
          simpa [List.filter_append, hfilter_sel] using hcount
      | some sys =>
          have hsys : Windower.hasSystemPart sys = true :=
            List.find?_some hfind
          simpa [List.filter_append, hfilter_sel, List.filter, hsys]
            using hcount
    · cases hfind : messages.find? Windower.hasSystemPart with
      | none => exact Or.inl rfl
      | some sys => exact Or.inr (by simp)
  · rw [if_neg h2]
    constructor
    · have hfilter_rest :
          rest.filter (fun m => !Windower.hasSystemPart m) = rest :=
        List.filter_eq_self.mpr hrest
      cases hfind : messages.find? Windower.hasSystemPart with
      | none =>
          simp only [List.filter_append, hfilter_rest]
          simp [min_le_right l.toNat rest.length]
      | some sys =>
          have hsys : Windower.hasSystemPart sys = true :=
            List.find?_some hfind
          have hsysf : (!Windower.hasSystemPart sys) = false := by
            rw [hsys]
            rfl
          show min l.toNat rest.length ≤
            (([sys] ++ rest).filter fun m => !Windower.hasSystemPart m).length
          have hnil : [sys].filter (fun m => !Windower.hasSystemPart m) = [] := by
            simp [List.filter, hsysf]
          rw [List.filter_append, hfilter_rest, hnil, List.nil_append]
          exact min_le_right _ _
    · cases hfind : messages.find? Windower.hasSystemPart with
      | none => exact Or.inl rfl
      | some sys => exact Or.inr (by simp)

/-- Witness for C4 at a concrete history with a system message, limit 2. -/
theorem c4_windower_floor_and_system_first_witness :
    min (Int.toNat 2)
        ([⟨[Windower.MessagePart.systemPromptPart "s"]⟩,
          ⟨[Windower.MessagePart.userPromptPart "a"]⟩,
          ⟨[Windower.MessagePart.textPart "b"]⟩,
          ⟨[Windower.MessagePart.userPromptPart "c"]⟩].filter
          fun m => !Windower.hasSystemPart m).length ≤
      ((Windower.filtered_message_history
          [⟨[Windower.MessagePart.systemPromptPart "s"]⟩,
           ⟨[Windower.MessagePart.userPromptPart "a"]⟩,
           ⟨[Windower.MessagePart.textPart "b"]⟩,
           ⟨[Windower.MessagePart.userPromptPart "c"]⟩] (some 2) true).filter
        fun m => !Windower.hasSystemPart m).length ∧
    ([⟨[Windower.MessagePart.systemPromptPart "s"]⟩,
      ⟨[Windower.MessagePart.userPromptPart "a"]⟩,
      ⟨[Windower.MessagePart.textPart "b"]⟩,
      ⟨[Windower.MessagePart.userPromptPart "c"]⟩].find?
        Windower.hasSystemPart = none ∨
      (Windower.filtered_message_history
          [⟨[Windower.MessagePart.systemPromptPart "s"]⟩,
           ⟨[Windower.MessagePart.userPromptPart "a"]⟩,
           ⟨[Windower.MessagePart.textPart "b"]⟩,
           ⟨[Windower.MessagePart.userPromptPart "c"]⟩] (some 2) true).head? =
        [⟨[Windower.MessagePart.systemPromptPart "s"]⟩,
         ⟨[Windower.MessagePart.userPromptPart "a"]⟩,
         ⟨[Windower.MessagePart.textPart "b"]⟩,
         ⟨[Windower.MessagePart.userPromptPart "c"]⟩].find?
          Windower.hasSystemPart) :=
  c4_windower_floor_and_system_first
    [⟨[Windower.MessagePart.systemPromptPart "s"]⟩,
     ⟨[Windower.MessagePart.userPromptPart "a"]⟩,
     ⟨[Windower.MessagePart.textPart "b"]⟩,
     ⟨[Windower.MessagePart.userPromptPart "c"]⟩] 2 (by decide)

namespace Driver

/-- `processPart` never records a tool result. -/
theorem processPart_tool_results (t : ToolStateTracker) (p : RespPart) :
    (processPart t p).1.tool_results = t.tool_results := by
  cases p with
  | textPart content =>
      by_cases hc : pyStrip content ≠ ""
      · simp [processPart, hc, ToolStateTracker.add_text]
      · simp [processPart, hc]
  | toolCallPart cid tname args =>
      simp [processPart, ToolStateTracker.add_tool_call]

/-- The part fold of a call-tools node never records a tool result. -/
theorem foldParts_tool_results (parts : List RespPart) :
    ∀ acc : ToolStateTracker × List String,
      ((parts.foldl
          (fun acc p =>
            let (t', out) := processPart acc.1 p
            (t', acc.2 ++ out))
          acc).1).tool_results = acc.1.tool_results := by
  induction parts with
  | nil => intro acc; rfl
  | cons p rest ih =>
      intro acc
      rw [List.foldl_cons, ih]
      exact processPart_tool_results acc.1 p

/-- `processNode` never records a tool result. -/
theorem processNode_tool_results (t : ToolStateTracker) (n : GraphNode) :
    (processNode t n).1.tool_results = t.tool_results := by
  cases n with
  | modelRequestNode => rfl
  | endNode => rfl
  | callToolsNode parts => exact foldParts_tool_results parts (t, [])

/-- The whole event loop never records a tool result: `add_tool_result` is
dead code of the tracker. -/
theorem runEvents_tool_results (events : List IterEvent) :
    ∀ t : ToolStateTracker,
      (runEvents t events).1.tool_results = t.tool_results := by
  induction events with
  | nil => intro t; rfl
  | cons e rest ih =>
      intro t
      cases e with
      | node n =>
          show (runEvents (processNode t n).1 rest).1.tool_results = _
          rw [ih, processNode_tool_results]
      | raised msg => rfl

/-- An event stream with no exception leaves the loop with no raised
message. -/
theorem runEvents_noRaise (events : List IterEvent) (h : noRaise events = true) :
    ∀ t : ToolStateTracker, (runEvents t events).2.2 = none := by
  induction events with
  | nil => intro t; rfl
  | cons e rest ih =>
      intro t
      cases e with
      | node n =>
          simp only [noRaise, List.all_cons, Bool.and_eq_true] at h
          show (runEvents (processNode t n).1 rest).2.2 = none
          exact ih (by simp [noRaise, h.2]) _
      | raised msg => simp [noRaise] at h

/-- Unfolding of the event loop at a node event. -/
theorem runEvents_cons_node (t : ToolStateTracker) (n : GraphNode)
    (evs : List IterEvent) :
    runEvents t (IterEvent.node n :: evs) =
      ((runEvents (processNode t n).1 evs).1,
       (processNode t n).2 ++ (runEvents (processNode t n).1 evs).2.1,
       (runEvents (processNode t n).1 evs).2.2) := by
  show (let (t', out) := processNode t n
        let (t'', outs, er) := runEvents t' evs
        (t'', out ++ outs, er)) = _
  rcases processNode t n with ⟨t1, out1⟩
  show (let (t'', outs, er) := runEvents t1 evs
        (t'', out1 ++ outs, er)) = _
  rcases runEvents t1 evs with ⟨t2, outs2, er2⟩
  rfl

/-- An exception after an exception-free prefix stops the loop with the
prefix's tracker and printed output and that message. -/
theorem runEvents_raised (pre : List IterEvent) (hpre : noRaise pre = true)
    (msg : String) (rest : List IterEvent) :
    ∀ t : ToolStateTracker,
      runEvents t (pre ++ IterEvent.raised msg :: rest) =
        ((runEvents t pre).1, (runEvents t pre).2.1, some msg) := by
  induction pre with
  | nil => intro t; rfl
  | cons e p ih =>
      intro t
      cases e with
      | node n =>
          simp only [noRaise, List.all_cons, Bool.and_eq_true] at hpre
          rw [List.cons_append, runEvents_cons_node, runEvents_cons_node,
            ih (by simp [noRaise, hpre.2]) (processNode t n).1]
      | raised m => simp [noRaise] at hpre

end Driver

/-! ## Claim C2: a failed turn -/

/-- C2 counterexample: with text "hello" streamed before the exception
"boom", the driver returns the string "Error: boom" as the turn output — not
the partial accumulator output "hello", which is discarded. -/
theorem c2_error_discards_partial_output_cex :
    (Driver.run_with_iter "hi" []
        [Driver.IterEvent.node (.callToolsNode [.textPart "hello"]),
         Driver.IterEvent.raised "boom"]).output = "Error: boom" ∧
    Driver.accumulatedText
        [Driver.IterEvent.node (.callToolsNode [.textPart "hello"]),
         Driver.IterEvent.raised "boom"] = "hello" ∧
    ("Error: boom" : String) ≠ "hello" := by
  refine ⟨?_, ?_, ?_⟩ <;> decide

/-- C2 amended: when an exception interrupts the turn after an exception-free
prefix, the driver prints the prefixed error, returns `"Error: <e>"` as the
output (the partial accumulator text is discarded), and returns the prior
history unmodified — no entries are appended for the failed turn. -/
theorem c2_failed_turn_keeps_history (user : String)
    (hist : List Driver.ChatMessage) (pre rest : List Driver.IterEvent)
    (msg : String) (hpre : Driver.noRaise pre = true) :
    (Driver.run_with_iter user hist
        (pre ++ Driver.IterEvent.raised msg :: rest)).history = hist ∧
    (Driver.run_with_iter user hist
        (pre ++ Driver.IterEvent.raised msg :: rest)).output =
      "Error: " ++ msg ∧
    (Driver.run_with_iter user hist
        (pre ++ Driver.IterEvent.raised msg :: rest)).printed =
      ["\nAgent: "] ++
        (Driver.runEvents Driver.ToolStateTracker.init pre).2.1 ++
        ["\n\nError: " ++ msg] := by
  have hre := Driver.runEvents_raised pre hpre msg rest Driver.ToolStateTracker.init
  refine ⟨?_, ?_, ?_⟩ <;> simp [Driver.run_with_iter, hre]

/-- Witness for C2 at a concrete interrupted turn. -/
theorem c2_failed_turn_keeps_history_witness :
    (Driver.run_with_iter "list it" [⟨"user", "old"⟩]
        [Driver.IterEvent.node (.callToolsNode [.textPart "Working"]),
         Driver.IterEvent.raised "oops"]).history = [⟨"user", "old"⟩] ∧
    (Driver.run_with_iter "list it" [⟨"user", "old"⟩]
        [Driver.IterEvent.node (.callToolsNode [.textPart "Working"]),
         Driver.IterEvent.raised "oops"]).output = "Error: " ++ "oops" ∧
    (Driver.run_with_iter "list it" [⟨"user", "old"⟩]
        [Driver.IterEvent.node (.callToolsNode [.textPart "Working"]),
         Driver.IterEvent.raised "oops"]).printed =
      ["\nAgent: "] ++
        (Driver.runEvents Driver.ToolStateTracker.init
          [Driver.IterEvent.node (.callToolsNode [.textPart "Working"])]).2.1 ++
        ["\n\nError: " ++ "oops"] :=
  c2_failed_turn_keeps_history "list it" [⟨"user", "old"⟩]
    [Driver.IterEvent.node (.callToolsNode [.textPart "Working"])] []
    "oops" (by decide)

/-! ## Claim C3: finalization of a completed turn -/

/-- C3 counterexample: a completed turn that observed the tool call "c1"
appends only the plain user and assistant text entries to the history; no
entry carries the tool call, and no tool result was ever recorded, so the
claimed assistant-Text-then-ToolCall/ToolReturn messages are never built. -/
theorem c3_history_has_no_tool_parts_cex :
    (Driver.run_with_iter "hi" []
        [Driver.IterEvent.node (.callToolsNode
           [.textPart "Done.",
            .toolCallPart "c1" "read_file" [("file_path", "/a")]]),
         Driver.IterEvent.node .endNode]).history =
      [⟨"user", "hi"⟩, ⟨"assistant", "Done."⟩] ∧
    (Driver.runEvents Driver.ToolStateTracker.init
        [Driver.IterEvent.node (.callToolsNode
           [.textPart "Done.",
            .toolCallPart "c1" "read_file" [("file_path", "/a")]]),
         Driver.IterEvent.node .endNode]).1.tool_calls =
      [("c1", ("read_file", [("file_path", "/a")]))] ∧
    (Driver.runEvents Driver.ToolStateTracker.init
        [Driver.IterEvent.node (.callToolsNode
           [.textPart "Done.",
            .toolCallPart "c1" "read_file" [("file_path", "/a")]]),
         Driver.IterEvent.node .endNode]).1.tool_results = [] := by
  refine ⟨?_, ?_, ?_⟩ <;> decide

/-- C3 amended: on a turn that completes without an exception, the driver
appends exactly two plain entries — a user entry with the input and an
assistant entry with the accumulated text — and trims the history to its
last 10 entries; tool calls live only in the turn tracker, tool results are
never recorded, and neither reaches the history. -/
theorem c3_finalize_appends_user_assistant (user : String)
    (hist : List Driver.ChatMessage) (evs : List Driver.IterEvent)
    (h : Driver.noRaise evs = true) :
    (Driver.run_with_iter user hist evs).history =
      (if hist.length + 2 > 10 then
        (hist ++
          [Driver.ChatMessage.mk "user" user,
           Driver.ChatMessage.mk "assistant" (Driver.accumulatedText evs)]).drop
          (hist.length + 2 - 10)
       else
        hist ++
          [Driver.ChatMessage.mk "user" user,
           Driver.ChatMessage.mk "assistant" (Driver.accumulatedText evs)]) ∧
    (Driver.runEvents Driver.ToolStateTracker.init evs).1.tool_results = [] := by
  constructor
  · have hnr := Driver.runEvents_noRaise evs h Driver.ToolStateTracker.init
    rcases hre : Driver.runEvents Driver.ToolStateTracker.init evs
      with ⟨t0, printed0, err0⟩
    have herr : err0 = none := by
      rw [hre] at hnr
      exact hnr
    subst herr
    have hacc : Driver.accumulatedText evs = t0.final_output := by
      unfold Driver.accumulatedText
      rw [hre]
    simp [Driver.run_with_iter, hre, hacc, Driver.ToolStateTracker.get_complete_output,
      List.length_append]
  · rw [Driver.runEvents_tool_results]
    rfl

/-- Witness for C3 at a concrete completed turn. -/
theorem c3_finalize_appends_user_assistant_witness :
    (Driver.run_with_iter "hey" [Driver.ChatMessage.mk "user" "old"]
        [Driver.IterEvent.node (.callToolsNode [.textPart "Sure."]),
         Driver.IterEvent.node .endNode]).history =
      (if ([Driver.ChatMessage.mk "user" "old"] : List Driver.ChatMessage).length
            + 2 > 10 then
        ([Driver.ChatMessage.mk "user" "old"] ++
          [Driver.ChatMessage.mk "user" "hey",
           Driver.ChatMessage.mk "assistant" (Driver.accumulatedText
             [Driver.IterEvent.node (.callToolsNode [.textPart "Sure."]),
              Driver.IterEvent.node .endNode])]).drop
          (([Driver.ChatMessage.mk "user" "old"] : List Driver.ChatMessage).length
            + 2 - 10)
       else
        [Driver.ChatMessage.mk "user" "old"] ++
          [Driver.ChatMessage.mk "user" "hey",
           Driver.ChatMessage.mk "assistant" (Driver.accumulatedText
             [Driver.IterEvent.node (.callToolsNode [.textPart "Sure."]),
              Driver.IterEvent.node .endNode])]) ∧
    (Driver.runEvents Driver.ToolStateTracker.init
        [Driver.IterEvent.node (.callToolsNode [.textPart "Sure."]),
         Driver.IterEvent.node .endNode]).1.tool_results = [] :=
  c3_finalize_appends_user_assistant "hey" [Driver.ChatMessage.mk "user" "old"]
    [Driver.IterEvent.node (.callToolsNode [.textPart "Sure."]),
     Driver.IterEvent.node .endNode] (by decide)

/-! ## Claim C8: malformed JSON lines and end-of-input -/

/-- C8: a line that fails JSON parsing makes the server emit exactly one
response `{"error": "Invalid JSON: <detail>"}` with the state unchanged, after
which the remaining lines are processed exactly as they would have been; an
exhausted input stream produces no further responses and is a clean
shutdown. -/
theorem c8_invalid_json_keeps_serving :
    (∀ (fs : Filesystem.FS) (detail : String) (rest : List Server.ServerLine),
        Server.serverLoop fs (Server.ServerLine.badJson detail :: rest) =
          (Server.Response.errorR ("Invalid JSON: " ++ detail) ::
            (Server.serverLoop fs rest).1,
           (Server.serverLoop fs rest).2)) ∧
    (∀ fs : Filesystem.FS, Server.serverLoop fs [] = ([], fs)) := by
  refine ⟨fun fs detail rest => ?_, fun fs => rfl⟩
  simp [Server.serverLoop, Server.serverStep]

/-! ## Claim C6: unknown function names -/

/-- C6: an execute_function request whose function_name is none of the four
registered operations yields the error envelope
`{"error": "Unknown function: <name>"}`, with the filesystem untouched; the
dispatch is a total function, so no exception escapes the server boundary. -/
theorem c6_unknown_function_error_envelope (fs : Filesystem.FS) (name : String)
    (params : Option (List (String × Server.JsonValue)))
    (h : name ∉ ["list_files", "read_file", "write_file", "get_file_info"]) :
    Server.handle_request fs
        { method := some "execute_function", function_name := some name,
          parameters := params } =
      (Server.Response.errorR ("Unknown function: " ++ name), fs) := by
  simp only [List.mem_cons, List.mem_singleton, not_or] at h
  obtain ⟨h1, h2, h3, h4⟩ := h
  simp [Server.handle_request, Server.pyShowOpt, h1, h2, h3, h4]

/-- Witness for C6 at a concrete unregistered name. -/
theorem c6_unknown_function_error_envelope_witness :
    Server.handle_request Filesystem.FS.empty
        { method := some "execute_function", function_name := some "frobnicate",
          parameters := none } =
      (Server.Response.errorR ("Unknown function: " ++ "frobnicate"),
       Filesystem.FS.empty) :=
  c6_unknown_function_error_envelope Filesystem.FS.empty "frobnicate" none
    (by decide)

/-! ## Claim C7: list_files on a missing directory -/

/-- C7 counterexample: in filesystem_mcp_fixed.py, `list_files` on the missing
directory "/nonexistent" returns a bare `{"error": ...}` dictionary: it
carries no `files`, `directories` or `path` fields, contradicting the claim
that the result carries all four fields. -/
theorem c7_fixed_list_files_bare_error_cex :
    (Filesystem.list_files Filesystem.FS.empty "/nonexistent").files = none ∧
    (Filesystem.list_files Filesystem.FS.empty "/nonexistent").directories = none ∧
    (Filesystem.list_files Filesystem.FS.empty "/nonexistent").path = none ∧
    (Filesystem.list_files Filesystem.FS.empty "/nonexistent").error =
      some "Directory '/nonexistent' not found" := by
  refine ⟨?_, ?_, ?_, ?_⟩ <;> decide

/-- C7 amended: the FastMCP variant (src/mcp_servers/filesystem_mcp.py) is the
one that returns the four-field result `{files: [], directories: [],
path: "<dir>", error: "Directory '<dir>' not found"}` on a missing directory;
the fixed protocol server returns a bare error instead. -/
theorem c7_fastmcp_list_files_four_fields (fs : Filesystem.FS) (dir : String)
    (h : fs.nodeAt (Filesystem.parsePath dir) = none) :
    FastMcp.list_files fs dir =
      { files := [], directories := [], path := dir,
        error := some ("Directory '" ++ dir ++ "' not found") } := by
  simp [FastMcp.list_files, h]

/-- Witness for C7 at the claim's concrete scenario input. -/
theorem c7_fastmcp_list_files_four_fields_witness :
    FastMcp.list_files Filesystem.FS.empty "/nonexistent" =
      { files := [], directories := [], path := "/nonexistent",
        error := some ("Directory '" ++ "/nonexistent" ++ "' not found") } :=
  c7_fastmcp_list_files_four_fields Filesystem.FS.empty "/nonexistent" (by decide)

/-! ## Claim C10: zero or negative limits never truncate -/

/-- C10: with a limit that is zero or negative the truncation branch never
fires: the output equals the no-limit output, namely the system message (if
present) followed by every non-system message surviving the tool-message
filter. -/
theorem c10_nonpositive_limit_no_truncation (messages : List Windower.Message)
    (l : Int) (hl : l ≤ 0) (inc : Bool) :
    Windower.filtered_message_history messages (some l) inc =
        Windower.filtered_message_history messages none inc ∧
    Windower.filtered_message_history messages (some l) inc =
      (messages.find? Windower.hasSystemPart).toList ++
        ((messages.filter fun m => !Windower.hasSystemPart m).filter
          fun m => inc || !Windower.hasToolPart m) := by
  have hns : ¬(l > 0) := not_lt.mpr hl
  constructor
  · simp [Windower.filtered_message_history, hns]
  · cases inc with
    | true =>
        simp [Windower.filtered_message_history, hns, Option.toList]
        cases messages.find? Windower.hasSystemPart <;> simp
    | false =>
        simp [Windower.filtered_message_history, hns, Option.toList]
        cases messages.find? Windower.hasSystemPart <;> simp

/-- Witness for C10 at a concrete history and the negative limit -3. -/
theorem c10_nonpositive_limit_no_truncation_witness :
    Windower.filtered_message_history
        [⟨[Windower.MessagePart.systemPromptPart "s"]⟩,
         ⟨[Windower.MessagePart.userPromptPart "u"]⟩,
         ⟨[Windower.MessagePart.textPart "t"]⟩] (some (-3)) true =
      Windower.filtered_message_history
        [⟨[Windower.MessagePart.systemPromptPart "s"]⟩,
         ⟨[Windower.MessagePart.userPromptPart "u"]⟩,
         ⟨[Windower.MessagePart.textPart "t"]⟩] none true ∧
    Windower.filtered_message_history
        [⟨[Windower.MessagePart.systemPromptPart "s"]⟩,
         ⟨[Windower.MessagePart.userPromptPart "u"]⟩,
         ⟨[Windower.MessagePart.textPart "t"]⟩] (some (-3)) true =
      ([⟨[Windower.MessagePart.systemPromptPart "s"]⟩,
        ⟨[Windower.MessagePart.userPromptPart "u"]⟩,
        ⟨[Windower.MessagePart.textPart "t"]⟩].find?
          Windower.hasSystemPart).toList ++
        (([⟨[Windower.MessagePart.systemPromptPart "s"]⟩,
           ⟨[Windower.MessagePart.userPromptPart "u"]⟩,
           ⟨[Windower.MessagePart.textPart "t"]⟩].filter
            fun m => !Windower.hasSystemPart m).filter
          fun m => true || !Windower.hasToolPart m) :=
  c10_nonpositive_limit_no_truncation _ (-3) (by decide) true
